import Mathlib

/-!
Verification of the simulated-annealing 0/1 knapsack solver
(`src/assignment/knapsac.py`) against its natural-language specification.

The Python source is shallowly embedded:
* numbers are exact rationals (`ℚ`);
* a packing is a `List ℕ` of 0/1 entries;
* the numpy random source is an injected stream `u : ℕ → ℚ` of uniform
  draws in `[0,1)` together with a cursor; `rnd.randint(n)` maps the next
  draw `d` to `⌊d * n⌋` (raising on `n = 0`, as numpy does) and
  `rnd.random()` returns the next draw itself;
* `np.exp` is an injected function `expf : ℚ → ℚ` (the code treats it as a
  black box; no claim depends on its values);
* Python runtime errors (`ValueError` from `randint(0)`,
  `ZeroDivisionError` from `iteration % 0`) are modelled with
  `Except String`.
-/

/-- State held by the annealing loop of `solve`: current packing, its
value, the current temperature and the position in the random stream. -/
structure SAState where
  packing : List ℕ
  valu : ℚ
  temp : ℚ
  cursor : ℕ
deriving Repr, DecidableEq

deriving instance DecidableEq for Except

/-- The index-driven accumulation loop of `total_valu_size`
(`for item in range(n)`), processing indices `0 .. n-1`. -/
def tvs_aux (packing : List ℕ) (valus sizes : List ℚ) : ℕ → ℚ × ℚ
  | 0 => (0, 0)
  | n + 1 =>
    if packing.getD n 0 = 1 then
      ((tvs_aux packing valus sizes n).1 + valus.getD n 0,
       (tvs_aux packing valus sizes n).2 + sizes.getD n 0)
    else tvs_aux packing valus sizes n

/-- Embedding of `total_valu_size(packing, valus, sizes, max_size)`: sums
value and size over the items with `packing[item] == 1`, then zeroes the
value when the summed size exceeds `max_size`. -/
def total_valu_size (packing : List ℕ) (valus sizes : List ℚ) (max_size : ℚ) : ℚ × ℚ :=
  if (tvs_aux packing valus sizes packing.length).2 > max_size then
    (0, (tvs_aux packing valus sizes packing.length).2)
  else tvs_aux packing valus sizes packing.length

/-- Specification-side sum: the sum of `xs` over the indices the packing
selects (entry equal to 1). -/
def selectedSum (packing : List ℕ) (xs : List ℚ) : ℚ :=
  ∑ i in Finset.range packing.length, if packing.getD i 0 = 1 then xs.getD i 0 else 0

/-- Model of `rnd.randint(n)` of a `numpy.random.RandomState`: consumes one
uniform draw `d` from `[0,1)` and returns `⌊d * n⌋`, a uniform index in
`[0, n)`; numpy raises `ValueError` when `n = 0` (empty range). -/
def randint (n : ℕ) (d : ℚ) : Except String ℕ :=
  if n = 0 then .error "ValueError: low >= high" else .ok (⌊d * (n : ℚ)⌋).toNat

/-- Embedding of `adjacent(packing, rnd)`: copies the packing, draws a
random index `i`, and flips the entry there (`0 ↦ 1`, `1 ↦ 0`, anything
else left unchanged, as in the source's `if`/`elif`). The draw `d` is the
next value of the injected random stream. -/
def adjacent (packing : List ℕ) (d : ℚ) : Except String (List ℕ) :=
  match randint packing.length d with
  | .error e => .error e
  | .ok i =>
    if packing.getD i 0 = 0 then .ok (packing.set i 1)
    else if packing.getD i 0 = 1 then .ok (packing.set i 0)
    else .ok packing

/-- One pass of the `while iteration < max_iter` body of `solve`:
generate an adjacent packing (consuming one random draw), evaluate it,
apply the acceptance rule (consuming one further draw `rnd.random()` only
in the else-branch), hit the progress print (whose `iteration % interval`
raises `ZeroDivisionError` when `interval = 0`), then cool the temperature
by `alpha`. `it` is the iteration counter (used only by the print). -/
def stepBody (expf : ℚ → ℚ) (u : ℕ → ℚ) (valus sizes : List ℚ) (max_size alpha : ℚ)
    (interval it : ℕ) (st : SAState) : Except String SAState :=
  match adjacent st.packing (u st.cursor) with
  | .error e => .error e
  | .ok adj_packing =>
    let adj_v := (total_valu_size adj_packing valus sizes max_size).1
    let next :=
      if adj_v > st.valu then (adj_packing, adj_v, st.cursor + 1)
      else
        let accept_p := expf ((adj_v - st.valu) / st.temp)
        let p := u (st.cursor + 1)
        if p < accept_p then (adj_packing, adj_v, st.cursor + 2)
        else (st.packing, st.valu, st.cursor + 2)
    if interval = 0 then .error "ZeroDivisionError: integer division or modulo by zero"
    else .ok ⟨next.1, next.2.1, st.temp * alpha, next.2.2⟩

/-- `runIters k` is the state of `solve`'s loop at the start of iteration
`k`, i.e. after `k` completed passes of the body beginning from `st0`;
`it` ranges over `0 .. k-1` exactly as the `iteration` counter does. -/
def runIters (expf : ℚ → ℚ) (u : ℕ → ℚ) (valus sizes : List ℚ) (max_size alpha : ℚ)
    (interval : ℕ) (st0 : SAState) : ℕ → Except String SAState
  | 0 => .ok st0
  | k + 1 =>
    (runIters expf u valus sizes max_size alpha interval st0 k).bind
      (stepBody expf u valus sizes max_size alpha interval k)

/-- The state `solve` builds before its loop: packing of all ones
(`np.ones(n_items)`), its evaluated value, `curr_temperature =
start_temperature`, and the random stream still unconsumed. -/
def initState (n_items : ℕ) (valus sizes : List ℚ) (max_size start_temperature : ℚ) : SAState :=
  ⟨List.replicate n_items 1,
   (total_valu_size (List.replicate n_items 1) valus sizes max_size).1,
   start_temperature, 0⟩

/-- Embedding of `solve(n_items, rnd, valus, sizes, max_size, max_iter,
start_temperature, alpha)`. `max_iter` is an integer as in Python: the
`while` loop runs `max_iter.toNat` times, and the print cadence is
`interval = int(max_iter / 10)` (truncating division). The result is the
final `curr_packing`, or the Python exception the run raises. -/
def solve (expf : ℚ → ℚ) (u : ℕ → ℚ) (n_items : ℕ) (valus sizes : List ℚ)
    (max_size : ℚ) (max_iter : ℤ) (start_temperature alpha : ℚ) : Except String (List ℕ) :=
  (runIters expf u valus sizes max_size alpha (max_iter.toNat / 10)
      (initState n_items valus sizes max_size start_temperature) max_iter.toNat).map
    (fun st => st.packing)

lemma tvs_aux_eq (packing : List ℕ) (valus sizes : List ℚ) (n : ℕ) :
    tvs_aux packing valus sizes n =
      (∑ i in Finset.range n, if packing.getD i 0 = 1 then valus.getD i 0 else 0,
       ∑ i in Finset.range n, if packing.getD i 0 = 1 then sizes.getD i 0 else 0) := by
  induction n with
  | zero => simp [tvs_aux]
  | succ n ih =>
    rw [tvs_aux, ih, Finset.sum_range_succ, Finset.sum_range_succ]
    split_ifs with h <;> simp

lemma randint_lt (n : ℕ) (d : ℚ) (hn : n ≠ 0) (hd0 : 0 ≤ d) (hd1 : d < 1) :
    randint n d = .ok (⌊d * (n : ℚ)⌋).toNat ∧ (⌊d * (n : ℚ)⌋).toNat < n := by
  refine ⟨by simp [randint, hn], ?_⟩
  have hnpos : (0 : ℚ) < (n : ℚ) := by
    exact_mod_cast Nat.pos_of_ne_zero hn
  have hub : d * (n : ℚ) < (n : ℚ) := by
    calc d * (n : ℚ) < 1 * (n : ℚ) := by exact mul_lt_mul_of_pos_right hd1 hnpos
    _ = (n : ℚ) := one_mul _
  have hfl : ⌊d * (n : ℚ)⌋ < (n : ℤ) := by
    rw [Int.floor_lt]
    exact_mod_cast hub
  omega

lemma adjacent_ok (packing : List ℕ) (d : ℚ) (hne : packing ≠ []) :
    ∃ adj, adjacent packing d = .ok adj ∧ adj.length = packing.length := by
  have hn : packing.length ≠ 0 := by simpa [List.length_eq_zero] using hne
  have hre : randint packing.length d = .ok (⌊d * (packing.length : ℚ)⌋).toNat := by
    simp [randint, hn]
  unfold adjacent
  rw [hre]
  by_cases h0 : packing.getD (⌊d * (packing.length : ℚ)⌋).toNat 0 = 0
  · exact ⟨packing.set (⌊d * (packing.length : ℚ)⌋).toNat 1,
      by simp only [h0, if_pos], by simp⟩
  · by_cases h1 : packing.getD (⌊d * (packing.length : ℚ)⌋).toNat 0 = 1
    · exact ⟨packing.set (⌊d * (packing.length : ℚ)⌋).toNat 0,
        by simp only [if_neg h0, if_pos h1], by simp⟩
    · exact ⟨packing, by simp only [if_neg h0, if_neg h1], rfl⟩

/-- Evaluation of `adjacent` when the draw is `0`: the drawn index is `0`. -/
lemma adjacent_zero_draw (packing : List ℕ) (hne : packing ≠ []) :
    adjacent packing 0 =
      (if packing.getD 0 0 = 0 then .ok (packing.set 0 1)
       else if packing.getD 0 0 = 1 then .ok (packing.set 0 0)
       else .ok packing) := by
  have hn : packing.length ≠ 0 := by simpa [List.length_eq_zero] using hne
  unfold adjacent randint
  rw [if_neg hn]
  norm_num

lemma stepBody_ok (expf : ℚ → ℚ) (u : ℕ → ℚ) (valus sizes : List ℚ)
    (max_size alpha : ℚ) (interval it : ℕ) (st : SAState)
    (hne : st.packing ≠ []) (hi : interval ≠ 0) :
    ∃ st', stepBody expf u valus sizes max_size alpha interval it st = .ok st' ∧
      st'.temp = st.temp * alpha ∧ st'.packing.length = st.packing.length := by
  obtain ⟨adj, hadj, hlen⟩ := adjacent_ok st.packing (u st.cursor) hne
  unfold stepBody
  rw [hadj]
  simp only [if_neg hi]
  by_cases hgt : (total_valu_size adj valus sizes max_size).1 > st.valu
  · exact ⟨⟨adj, (total_valu_size adj valus sizes max_size).1, st.temp * alpha, st.cursor + 1⟩,
      by rw [if_pos hgt], rfl, hlen⟩
  · by_cases hp : u (st.cursor + 1) <
        expf (((total_valu_size adj valus sizes max_size).1 - st.valu) / st.temp)
    · exact ⟨⟨adj, (total_valu_size adj valus sizes max_size).1, st.temp * alpha, st.cursor + 2⟩,
        by rw [if_neg hgt, if_pos hp], rfl, hlen⟩
    · exact ⟨⟨st.packing, st.valu, st.temp * alpha, st.cursor + 2⟩,
        by rw [if_neg hgt, if_neg hp], rfl, rfl⟩

lemma stepBody_div0 (expf : ℚ → ℚ) (u : ℕ → ℚ) (valus sizes : List ℚ)
    (max_size alpha : ℚ) (it : ℕ) (st : SAState) (adj : List ℕ)
    (hadj : adjacent st.packing (u st.cursor) = .ok adj) :
    stepBody expf u valus sizes max_size alpha 0 it st =
      .error "ZeroDivisionError: integer division or modulo by zero" := by
  unfold stepBody
  rw [hadj]
  simp

lemma stepBody_reject (expf : ℚ → ℚ) (u : ℕ → ℚ) (valus sizes : List ℚ)
    (max_size alpha : ℚ) (interval it : ℕ) (st : SAState) (adj : List ℕ)
    (hadj : adjacent st.packing (u st.cursor) = .ok adj)
    (hi : interval ≠ 0)
    (hle : ¬ (total_valu_size adj valus sizes max_size).1 > st.valu)
    (hp : ¬ u (st.cursor + 1) <
        expf (((total_valu_size adj valus sizes max_size).1 - st.valu) / st.temp)) :
    stepBody expf u valus sizes max_size alpha interval it st =
      .ok ⟨st.packing, st.valu, st.temp * alpha, st.cursor + 2⟩ := by
  unfold stepBody
  rw [hadj]
  simp only [if_neg hi]
  rw [if_neg hle, if_neg hp]

lemma runIters_ok (expf : ℚ → ℚ) (u : ℕ → ℚ) (valus sizes : List ℚ)
    (max_size alpha : ℚ) (interval : ℕ) (st0 : SAState)
    (hne : st0.packing ≠ []) (hi : interval ≠ 0) (k : ℕ) :
    ∃ st, runIters expf u valus sizes max_size alpha interval st0 k = .ok st ∧
      st.temp = st0.temp * alpha ^ k ∧ st.packing.length = st0.packing.length := by
  induction k with
  | zero => exact ⟨st0, rfl, by simp, rfl⟩
  | succ k ih =>
    obtain ⟨st, hrun, htemp, hlen⟩ := ih
    have hne' : st.packing ≠ [] := by
      have h0 : st0.packing.length ≠ 0 := by simpa [List.length_eq_zero] using hne
      intro hnil
      rw [hnil] at hlen
      exact h0 (by simpa using hlen.symm)
    obtain ⟨st', hstep, htemp', hlen'⟩ :=
      stepBody_ok expf u valus sizes max_size alpha interval k st hne' hi
    refine ⟨st', ?_, ?_, by rw [hlen', hlen]⟩
    · rw [runIters, hrun]
      simpa [Except.bind] using hstep
    · rw [htemp', htemp, pow_succ]
      ring

lemma runIters_div0 (expf : ℚ → ℚ) (u : ℕ → ℚ) (valus sizes : List ℚ)
    (max_size alpha : ℚ) (st0 : SAState) (hne : st0.packing ≠ []) :
    ∀ k, k ≠ 0 → runIters expf u valus sizes max_size alpha 0 st0 k =
      .error "ZeroDivisionError: integer division or modulo by zero" := by
  intro k
  induction k with
  | zero => intro h; cases h rfl
  | succ k ih =>
    intro _
    rw [runIters]
    by_cases hk : k = 0
    · subst hk
      obtain ⟨adj, hadj, _⟩ := adjacent_ok st0.packing (u st0.cursor) hne
      show stepBody expf u valus sizes max_size alpha 0 0 st0 = _
      exact stepBody_div0 expf u valus sizes max_size alpha 0 st0 adj hadj
    · rw [ih hk]
      rfl

lemma runIters_empty (expf : ℚ → ℚ) (u : ℕ → ℚ) (valus sizes : List ℚ)
    (max_size alpha : ℚ) (interval : ℕ) (st0 : SAState) (hemp : st0.packing = []) :
    ∀ k, k ≠ 0 → runIters expf u valus sizes max_size alpha interval st0 k =
      .error "ValueError: low >= high" := by
  have hadj : adjacent st0.packing (u st0.cursor) = .error "ValueError: low >= high" := by
    rw [hemp]
    rfl
  have hstep : ∀ it, stepBody expf u valus sizes max_size alpha interval it st0 =
      .error "ValueError: low >= high" := by
    intro it
    unfold stepBody
    rw [hadj]
  intro k
  induction k with
  | zero => intro h; cases h rfl
  | succ k ih =>
    intro _
    rw [runIters]
    by_cases hk : k = 0
    · subst hk
      show stepBody expf u valus sizes max_size alpha interval 0 st0 = _
      exact hstep 0
    · rw [ih hk]
      rfl

lemma c7_run (k : ℕ) :
    runIters (fun _ => (0 : ℚ)) (fun _ => (0 : ℚ)) [3, 4] [1, 1] 10 2 1
      ⟨[1, 1], 7, 100, 0⟩ k = .ok ⟨[1, 1], 7, 100 * 2 ^ k, 2 * k⟩ := by
  induction k with
  | zero =>
    rw [runIters]
    norm_num
  | succ k ih =>
    rw [runIters, ih]
    have hadj : adjacent ([1, 1] : List ℕ) ((fun _ => (0 : ℚ)) (2 * k)) = .ok [0, 1] := by
      rw [show ((fun _ => (0 : ℚ)) (2 * k)) = 0 from rfl, adjacent_zero_draw [1, 1] (by decide)]
      decide
    show stepBody (fun _ => (0 : ℚ)) (fun _ => (0 : ℚ)) [3, 4] [1, 1] 10 2 1 k
        ⟨[1, 1], 7, 100 * 2 ^ k, 2 * k⟩ = .ok ⟨[1, 1], 7, 100 * 2 ^ (k + 1), 2 * (k + 1)⟩
    rw [stepBody_reject (fun _ => (0 : ℚ)) (fun _ => (0 : ℚ)) [3, 4] [1, 1] 10 2 1 k
      ⟨[1, 1], 7, 100 * 2 ^ k, 2 * k⟩ [0, 1] hadj (by decide)
      (by norm_num [total_valu_size, tvs_aux]) (by norm_num)]
    simp only [Except.ok.injEq, SAState.mk.injEq, true_and]
    exact ⟨by ring, by ring⟩

lemma c8_run (k : ℕ) :
    runIters (fun _ => (0 : ℚ)) (fun _ => (0 : ℚ)) [5] [3] 10 (1/2) 200
      ⟨[1], 5, 1, 0⟩ k = .ok ⟨[1], 5, (1/2) ^ k, 2 * k⟩ := by
  induction k with
  | zero =>
    rw [runIters]
    norm_num
  | succ k ih =>
    rw [runIters, ih]
    have hadj : adjacent ([1] : List ℕ) ((fun _ => (0 : ℚ)) (2 * k)) = .ok [0] := by
      rw [show ((fun _ => (0 : ℚ)) (2 * k)) = 0 from rfl, adjacent_zero_draw [1] (by decide)]
      decide
    show stepBody (fun _ => (0 : ℚ)) (fun _ => (0 : ℚ)) [5] [3] 10 (1/2) 200 k
        ⟨[1], 5, (1/2) ^ k, 2 * k⟩ = .ok ⟨[1], 5, (1/2) ^ (k + 1), 2 * (k + 1)⟩
    rw [stepBody_reject (fun _ => (0 : ℚ)) (fun _ => (0 : ℚ)) [5] [3] 10 (1/2) 200 k
      ⟨[1], 5, (1/2) ^ k, 2 * k⟩ [0] hadj (by decide)
      (by norm_num [total_valu_size, tvs_aux]) (by norm_num)]
    simp only [Except.ok.injEq, SAState.mk.injEq, true_and]
    exact ⟨by ring, by ring⟩

/-- C1: the evaluator returns as `totalSize` the sum of the sizes of the
selected items regardless of capacity, returns as `totalValue` the sum of
the values of the selected items when the size sum is at most the
capacity, and returns `totalValue = 0` when the size sum strictly exceeds
the capacity. -/
theorem c1_total_valu_size_spec (packing : List ℕ) (valus sizes : List ℚ) (cap : ℚ)
    (h01 : ∀ x ∈ packing, x = 0 ∨ x = 1)
    (hv : valus.length = packing.length) (hs : sizes.length = packing.length) :
    (total_valu_size packing valus sizes cap).2 = selectedSum packing sizes ∧
    (selectedSum packing sizes ≤ cap →
      (total_valu_size packing valus sizes cap).1 = selectedSum packing valus) ∧
    (cap < selectedSum packing sizes →
      (total_valu_size packing valus sizes cap).1 = 0) := by
  have key : total_valu_size packing valus sizes cap =
      (if selectedSum packing sizes > cap then 0 else selectedSum packing valus,
       selectedSum packing sizes) := by
    unfold total_valu_size selectedSum
    rw [tvs_aux_eq]
    split_ifs with h1 <;> rfl
  rw [key]
  refine ⟨rfl, ?_, ?_⟩
  · intro hle
    show (if selectedSum packing sizes > cap then 0 else selectedSum packing valus) =
      selectedSum packing valus
    rw [if_neg (not_lt.mpr hle)]
  · intro hlt
    show (if selectedSum packing sizes > cap then 0 else selectedSum packing valus) = 0
    rw [if_pos hlt]

theorem c1_witness :
    (∀ x ∈ [1, 0, 1], x = 0 ∨ x = 1) ∧
    ((total_valu_size [1, 0, 1] [2, 3, 4] [5, 6, 7] 20).2 = selectedSum [1, 0, 1] [5, 6, 7] ∧
     (selectedSum [1, 0, 1] [5, 6, 7] ≤ 20 →
       (total_valu_size [1, 0, 1] [2, 3, 4] [5, 6, 7] 20).1 = selectedSum [1, 0, 1] [2, 3, 4]) ∧
     (20 < selectedSum [1, 0, 1] [5, 6, 7] →
       (total_valu_size [1, 0, 1] [2, 3, 4] [5, 6, 7] 20).1 = 0)) :=
  ⟨by decide, c1_total_valu_size_spec [1, 0, 1] [2, 3, 4] [5, 6, 7] 20 (by decide) rfl rfl⟩

/-- C2: on a non-empty 0/1 packing, with a uniform draw `d ∈ [0,1)`,
`adjacent` succeeds and returns a packing of the same length that differs
from its input exactly at the drawn index `⌊d * n⌋` and nowhere else
(Hamming distance exactly 1). The input list itself is untouched:
`List.set` builds a new list, mirroring the source's `np.copy`. -/
theorem c2_adjacent_single_flip (packing : List ℕ) (d : ℚ)
    (hne : packing ≠ [])
    (h01 : ∀ x ∈ packing, x = 0 ∨ x = 1)
    (hd0 : 0 ≤ d) (hd1 : d < 1) :
    ∃ res, adjacent packing d = .ok res ∧
      res.length = packing.length ∧
      (⌊d * (packing.length : ℚ)⌋).toNat < packing.length ∧
      res.getD (⌊d * (packing.length : ℚ)⌋).toNat 0 ≠
        packing.getD (⌊d * (packing.length : ℚ)⌋).toNat 0 ∧
      ∀ j, j ≠ (⌊d * (packing.length : ℚ)⌋).toNat →
        res.getD j 0 = packing.getD j 0 := by
  have hn : packing.length ≠ 0 := by
    simpa [List.length_eq_zero] using hne
  obtain ⟨hre, hlt⟩ := randint_lt packing.length d hn hd0 hd1
  set i := (⌊d * (packing.length : ℚ)⌋).toNat with hi
  have hgetD : packing.getD i 0 = packing.get ⟨i, hlt⟩ := by
    rw [List.getD_eq_getElem packing 0 hlt]
    simp [List.get_eq_getElem]
  have hmem : packing.get ⟨i, hlt⟩ ∈ packing := List.get_mem packing i hlt
  have hset_same : ∀ a : ℕ, (packing.set i a).getD i 0 = a := by
    intro a
    have hlen : i < (packing.set i a).length := by
      simpa [List.length_set] using hlt
    rw [List.getD_eq_getElem _ 0 hlen]
    simp [List.getElem_set_self]
  have hset_other : ∀ (a : ℕ) (j : ℕ), j ≠ i → (packing.set i a).getD j 0 = packing.getD j 0 := by
    intro a j hji
    by_cases hjlen : j < packing.length
    · have hjlen' : j < (packing.set i a).length := by
        simpa [List.length_set] using hjlen
      rw [List.getD_eq_getElem _ 0 hjlen', List.getD_eq_getElem _ 0 hjlen]
      exact List.getElem_set_ne (fun h => hji h.symm) hjlen'
    · have h1 : (packing.set i a).getD j 0 = 0 := by
        apply List.getD_eq_default
        simpa [List.length_set] using not_lt.mp hjlen
      have h2 : packing.getD j 0 = 0 := by
        apply List.getD_eq_default
        exact not_lt.mp hjlen
      rw [h1, h2]
  rcases h01 _ hmem with h0 | h1
  · refine ⟨packing.set i 1, ?_, by simp [List.length_set], hlt, ?_, fun j hj => hset_other 1 j hj⟩
    · unfold adjacent
      rw [hre]
      simp only [hgetD, h0, if_pos]
    · rw [hset_same 1, hgetD, h0]
      decide
  · refine ⟨packing.set i 0, ?_, by simp [List.length_set], hlt, ?_, fun j hj => hset_other 0 j hj⟩
    · unfold adjacent
      rw [hre]
      simp only [hgetD, h1]
      norm_num
    · rw [hset_same 0, hgetD, h1]
      decide

theorem c2_witness :
    ([1, 0, 1] ≠ ([] : List ℕ)) ∧ (∀ x ∈ [1, 0, 1], x = 0 ∨ x = 1) ∧
      ((0 : ℚ) ≤ 1/2 ∧ (1/2 : ℚ) < 1) ∧
    (∃ res, adjacent [1, 0, 1] (1/2) = .ok res ∧
      res.length = List.length [1, 0, 1] ∧
      (⌊(1/2 : ℚ) * (List.length [1, 0, 1] : ℚ)⌋).toNat < List.length [1, 0, 1] ∧
      res.getD (⌊(1/2 : ℚ) * (List.length [1, 0, 1] : ℚ)⌋).toNat 0 ≠
        List.getD [1, 0, 1] (⌊(1/2 : ℚ) * (List.length [1, 0, 1] : ℚ)⌋).toNat 0 ∧
      ∀ j, j ≠ (⌊(1/2 : ℚ) * (List.length [1, 0, 1] : ℚ)⌋).toNat →
        res.getD j 0 = List.getD [1, 0, 1] j 0) :=
  ⟨by decide, by decide, by norm_num,
    c2_adjacent_single_flip [1, 0, 1] (1/2) (by decide) (by decide) (by norm_num) (by norm_num)⟩

/-- C3: in each loop iteration (with the candidate produced by `adjacent`
and the progress interval non-zero so the iteration completes), a
candidate whose evaluated value strictly exceeds the current value is
accepted unconditionally; otherwise the candidate is accepted exactly when
the next uniform draw `p` satisfies `p < expf((adj_v - curr_valu) /
curr_temperature)`, and the packing and value are left unchanged when it
is not. -/
theorem c3_acceptance_rule (expf : ℚ → ℚ) (u : ℕ → ℚ) (valus sizes : List ℚ)
    (max_size alpha : ℚ) (interval it : ℕ) (st : SAState) (adj : List ℕ)
    (hadj : adjacent st.packing (u st.cursor) = .ok adj) (hi : interval ≠ 0) :
    ∃ st', stepBody expf u valus sizes max_size alpha interval it st = .ok st' ∧
      (((total_valu_size adj valus sizes max_size).1 > st.valu →
          st'.packing = adj ∧ st'.valu = (total_valu_size adj valus sizes max_size).1) ∧
       (¬ (total_valu_size adj valus sizes max_size).1 > st.valu →
          u (st.cursor + 1) <
              expf (((total_valu_size adj valus sizes max_size).1 - st.valu) / st.temp) →
          st'.packing = adj ∧ st'.valu = (total_valu_size adj valus sizes max_size).1) ∧
       (¬ (total_valu_size adj valus sizes max_size).1 > st.valu →
          ¬ u (st.cursor + 1) <
              expf (((total_valu_size adj valus sizes max_size).1 - st.valu) / st.temp) →
          st'.packing = st.packing ∧ st'.valu = st.valu)) := by
  unfold stepBody
  rw [hadj]
  simp only [if_neg hi]
  by_cases hgt : (total_valu_size adj valus sizes max_size).1 > st.valu
  · refine ⟨_, by rw [if_pos hgt], ?_⟩
    exact ⟨fun _ => ⟨rfl, rfl⟩, fun hng => absurd hgt hng, fun hng => absurd hgt hng⟩
  · rw [if_neg hgt]
    by_cases hp : u (st.cursor + 1) <
        expf (((total_valu_size adj valus sizes max_size).1 - st.valu) / st.temp)
    · refine ⟨_, by rw [if_pos hp], ?_⟩
      exact ⟨fun hgt' => absurd hgt' hgt, fun _ _ => ⟨rfl, rfl⟩,
        fun _ hnp => absurd hp hnp⟩
    · refine ⟨_, by rw [if_neg hp], ?_⟩
      exact ⟨fun hgt' => absurd hgt' hgt, fun _ hp' => absurd hp' hp,
        fun _ _ => ⟨rfl, rfl⟩⟩

theorem c3_witness :
    adjacent [1, 0] ((fun _ => (0 : ℚ)) 0) = .ok [0, 0] ∧ (1 : ℕ) ≠ 0 ∧
    (∃ st', stepBody (fun _ => 1) (fun _ => 0) [3, 4] [1, 1] 10 (1/2) 1 0
        ⟨[1, 0], 3, 2, 0⟩ = .ok st' ∧
      (((total_valu_size [0, 0] [3, 4] [1, 1] 10).1 > (3 : ℚ) →
          st'.packing = [0, 0] ∧ st'.valu = (total_valu_size [0, 0] [3, 4] [1, 1] 10).1) ∧
       (¬ (total_valu_size [0, 0] [3, 4] [1, 1] 10).1 > (3 : ℚ) →
          (0 : ℚ) < 1 →
          st'.packing = [0, 0] ∧ st'.valu = (total_valu_size [0, 0] [3, 4] [1, 1] 10).1) ∧
       (¬ (total_valu_size [0, 0] [3, 4] [1, 1] 10).1 > (3 : ℚ) →
          ¬ (0 : ℚ) < 1 →
          st'.packing = [1, 0] ∧ st'.valu = 3))) := by
  have hadj : adjacent [1, 0] ((fun _ => (0 : ℚ)) 0) = .ok [0, 0] := by
    rw [show ((fun _ => (0 : ℚ)) 0) = 0 from rfl, adjacent_zero_draw [1, 0] (by decide)]
    decide
  exact ⟨hadj, one_ne_zero,
    c3_acceptance_rule (fun _ => 1) (fun _ => 0) [3, 4] [1, 1] 10 (1/2) 1 0
      ⟨[1, 0], 3, 2, 0⟩ [0, 0] hadj one_ne_zero⟩

/-- C4 counterexample: with a three-item instance and `max_iter = 5` (a
perfectly ordinary positive iteration budget), `solve` does not run
`max_iter` iterations and return a selection: `interval = int(5/10) = 0`
and the first `iteration % interval` raises `ZeroDivisionError`. -/
theorem c4_counterexample :
    solve (fun _ => 1) (fun _ => 0) 3 [1, 2, 3] [1, 1, 1] 10 5 100 (1/2) =
      .error "ZeroDivisionError: integer division or modulo by zero" := by
  unfold solve
  rw [show ((5 : ℤ).toNat / 10) = 0 from rfl, show ((5 : ℤ).toNat) = 5 from rfl,
    runIters_div0 (fun _ => 1) (fun _ => 0) [1, 2, 3] [1, 1, 1] 10 (1/2)
      (initState 3 [1, 2, 3] [1, 1, 1] 10 100) (by decide) 5 (by decide)]
  rfl

/-- C4 (amended): provided the instance has at least one item and
`max_iter ≥ 10` (so the progress interval is non-zero), `solve`
initialises the packing to all ones and the temperature to
`start_temperature`, executes exactly `max_iter` loop iterations with no
early exit, and returns the packing of the state after the final
iteration (whatever its value, not the best visited). -/
theorem c4_amended_loop_structure (expf : ℚ → ℚ) (u : ℕ → ℚ) (n_items : ℕ)
    (valus sizes : List ℚ) (max_size : ℚ) (max_iter : ℤ) (startT alpha : ℚ)
    (hn : n_items ≠ 0) (hmi : 10 ≤ max_iter) :
    ∃ stf, runIters expf u valus sizes max_size alpha (max_iter.toNat / 10)
        (initState n_items valus sizes max_size startT) max_iter.toNat = .ok stf ∧
      solve expf u n_items valus sizes max_size max_iter startT alpha = .ok stf.packing ∧
      (initState n_items valus sizes max_size startT).packing = List.replicate n_items 1 ∧
      (initState n_items valus sizes max_size startT).temp = startT ∧
      stf.packing.length = n_items := by
  have hne : (initState n_items valus sizes max_size startT).packing ≠ [] := by
    intro h
    apply hn
    have hl := congrArg List.length h
    simpa [initState] using hl
  have hi : max_iter.toNat / 10 ≠ 0 := by
    have h10 : (10 : ℕ) ≤ max_iter.toNat := by omega
    have h1 := (Nat.one_le_div_iff (by norm_num : 0 < 10)).mpr h10
    omega
  obtain ⟨stf, hrun, htemp, hlen⟩ :=
    runIters_ok expf u valus sizes max_size alpha (max_iter.toNat / 10)
      (initState n_items valus sizes max_size startT) hne hi max_iter.toNat
  refine ⟨stf, hrun, ?_, rfl, rfl, ?_⟩
  · unfold solve
    rw [hrun]
    rfl
  · rw [hlen]
    simp [initState]

theorem c4_witness :
    ((2 : ℕ) ≠ 0) ∧ ((10 : ℤ) ≤ 10) ∧
    (∃ stf, runIters (fun _ => 1) (fun _ => 0) [3, 4] [1, 1] 10 (1/2)
        ((10 : ℤ).toNat / 10) (initState 2 [3, 4] [1, 1] 10 100) (10 : ℤ).toNat = .ok stf ∧
      solve (fun _ => 1) (fun _ => 0) 2 [3, 4] [1, 1] 10 10 100 (1/2) = .ok stf.packing ∧
      (initState 2 [3, 4] [1, 1] 10 100).packing = List.replicate 2 1 ∧
      (initState 2 [3, 4] [1, 1] 10 100).temp = 100 ∧
      stf.packing.length = 2) :=
  ⟨by decide, by norm_num,
    c4_amended_loop_structure (fun _ => 1) (fun _ => 0) 2 [3, 4] [1, 1] 10 10 100 (1/2)
      (by decide) (by norm_num)⟩

/-- C5: with `coolingFactor` strictly in `(0,1)` and a positive
`startTemperature` (and a run that proceeds: non-empty instance,
`max_iter ≥ 10`), the temperature at the start of iteration `k` is
exactly `startTemperature * coolingFactor ^ k`, and across the loop the
temperature sequence is non-increasing. -/
theorem c5_monotone_cooling (expf : ℚ → ℚ) (u : ℕ → ℚ) (n_items : ℕ)
    (valus sizes : List ℚ) (max_size : ℚ) (startT alpha : ℚ) (mi : ℤ)
    (hn : n_items ≠ 0) (hmi : 10 ≤ mi)
    (ha0 : 0 < alpha) (ha1 : alpha < 1) (ht : 0 < startT) :
    (∀ k, k < mi.toNat →
      ∃ st, runIters expf u valus sizes max_size alpha (mi.toNat / 10)
          (initState n_items valus sizes max_size startT) k = .ok st ∧
        st.temp = startT * alpha ^ k) ∧
    (∀ j k stj stk, j ≤ k →
      runIters expf u valus sizes max_size alpha (mi.toNat / 10)
          (initState n_items valus sizes max_size startT) j = .ok stj →
      runIters expf u valus sizes max_size alpha (mi.toNat / 10)
          (initState n_items valus sizes max_size startT) k = .ok stk →
      stk.temp ≤ stj.temp) := by
  have hne : (initState n_items valus sizes max_size startT).packing ≠ [] := by
    intro h
    apply hn
    have hl := congrArg List.length h
    simpa [initState] using hl
  have hi : mi.toNat / 10 ≠ 0 := by
    have h10n : (10 : ℕ) ≤ mi.toNat := by omega
    have h1 := (Nat.one_le_div_iff (by norm_num : 0 < 10)).mpr h10n
    omega
  constructor
  · intro k _
    obtain ⟨st, hrun, htemp, _⟩ :=
      runIters_ok expf u valus sizes max_size alpha (mi.toNat / 10)
        (initState n_items valus sizes max_size startT) hne hi k
    exact ⟨st, hrun, htemp⟩
  · intro j k stj stk hjk hj hk
    obtain ⟨stj', hrunj, htempj, _⟩ :=
      runIters_ok expf u valus sizes max_size alpha (mi.toNat / 10)
        (initState n_items valus sizes max_size startT) hne hi j
    obtain ⟨stk', hrunk, htempk, _⟩ :=
      runIters_ok expf u valus sizes max_size alpha (mi.toNat / 10)
        (initState n_items valus sizes max_size startT) hne hi k
    rw [hj] at hrunj
    rw [hk] at hrunk
    obtain rfl : stj = stj' := Except.ok.inj hrunj
    obtain rfl : stk = stk' := Except.ok.inj hrunk
    rw [htempj, htempk]
    apply mul_le_mul_of_nonneg_left _ ht.le
    exact pow_le_pow_of_le_one ha0.le ha1.le hjk

theorem c5_witness :
    ((1 : ℕ) ≠ 0) ∧ ((10 : ℤ) ≤ 10) ∧ ((0 : ℚ) < 1/2 ∧ (1/2 : ℚ) < 1 ∧ (0 : ℚ) < 100) ∧
    ((∀ k, k < (10 : ℤ).toNat →
      ∃ st, runIters (fun _ => 1) (fun _ => 0) [5] [3] 10 (1/2) ((10 : ℤ).toNat / 10)
          (initState 1 [5] [3] 10 100) k = .ok st ∧
        st.temp = 100 * (1/2) ^ k) ∧
    (∀ j k stj stk, j ≤ k →
      runIters (fun _ => 1) (fun _ => 0) [5] [3] 10 (1/2) ((10 : ℤ).toNat / 10)
          (initState 1 [5] [3] 10 100) j = .ok stj →
      runIters (fun _ => 1) (fun _ => 0) [5] [3] 10 (1/2) ((10 : ℤ).toNat / 10)
          (initState 1 [5] [3] 10 100) k = .ok stk →
      stk.temp ≤ stj.temp)) :=
  ⟨by decide, by norm_num, ⟨by norm_num, by norm_num, by norm_num⟩,
    c5_monotone_cooling (fun _ => 1) (fun _ => 0) 1 [5] [3] 10 100 (1/2) 10
      (by decide) (by norm_num) (by norm_num) (by norm_num) (by norm_num)⟩

/-- C6: the random source is the only source of nondeterminism. Two
solves with the same instance, config and exp function, whose random
streams agree at every position, return the same final packing and walk
through identical intermediate states (packings, current values,
temperatures and stream cursors) at every iteration. -/
theorem c6_determinism (expf : ℚ → ℚ) (u1 u2 : ℕ → ℚ) (n_items : ℕ)
    (valus sizes : List ℚ) (max_size : ℚ) (max_iter : ℤ) (startT alpha : ℚ)
    (h : ∀ i, u1 i = u2 i) :
    solve expf u1 n_items valus sizes max_size max_iter startT alpha =
      solve expf u2 n_items valus sizes max_size max_iter startT alpha ∧
    (∀ k, runIters expf u1 valus sizes max_size alpha (max_iter.toNat / 10)
        (initState n_items valus sizes max_size startT) k =
      runIters expf u2 valus sizes max_size alpha (max_iter.toNat / 10)
        (initState n_items valus sizes max_size startT) k) := by
  obtain rfl : u1 = u2 := funext h
  exact ⟨rfl, fun _ => rfl⟩

theorem c6_witness :
    (∀ i, (fun _ => (0 : ℚ)) i = (fun j => (0 : ℚ) * j) i) ∧
    (solve (fun _ => 1) (fun _ => 0) 2 [3, 4] [1, 1] 10 10 100 (1/2) =
      solve (fun _ => 1) (fun j => (0 : ℚ) * j) 2 [3, 4] [1, 1] 10 10 100 (1/2) ∧
    (∀ k, runIters (fun _ => 1) (fun _ => 0) [3, 4] [1, 1] 10 (1/2) ((10 : ℤ).toNat / 10)
        (initState 2 [3, 4] [1, 1] 10 100) k =
      runIters (fun _ => 1) (fun j => (0 : ℚ) * j) [3, 4] [1, 1] 10 (1/2) ((10 : ℤ).toNat / 10)
        (initState 2 [3, 4] [1, 1] 10 100) k)) :=
  ⟨fun i => by norm_num,
    c6_determinism (fun _ => 1) (fun _ => 0) (fun j => (0 : ℚ) * j) 2 [3, 4] [1, 1] 10 10 100
      (1/2) (fun i => by norm_num)⟩

/-- C7 counterexample: with `alpha = 2` (cooling factor far outside
`(0,1)`), `solve` is not rejected: it runs all 10 iterations and returns
a selection. -/
theorem c7_counterexample :
    solve (fun _ => (0 : ℚ)) (fun _ => (0 : ℚ)) 2 [3, 4] [1, 1] 10 10 100 2 = .ok [1, 1] := by
  have hinit : initState 2 [3, 4] [1, 1] 10 100 = ⟨[1, 1], 7, 100, 0⟩ := by
    unfold initState
    rw [show List.replicate 2 (1 : ℕ) = [1, 1] from rfl,
      show (total_valu_size [1, 1] [3, 4] [1, 1] 10).1 = 7 from by
        norm_num [total_valu_size, tvs_aux]]
  unfold solve
  rw [show ((10 : ℤ).toNat / 10) = 1 from rfl, show ((10 : ℤ).toNat) = 10 from rfl,
    hinit, c7_run 10]
  rfl

/-- C7 (amended): `solve` performs no validation of `coolingFactor`,
`startTemperature` or `maxIterations`. On a non-empty instance with
value/size lists of matching length (where the embedding coincides with
the Python indexing) and `max_iter ≥ 10`, the loop runs to completion and
returns a selection for every `coolingFactor` and every
`startTemperature`, however invalid; and `maxIterations ≤ 0` is not
rejected either — the loop is skipped and the initial all-ones selection
is returned. -/
theorem c7_no_validation (expf : ℚ → ℚ) (u : ℕ → ℚ) (n_items : ℕ)
    (valus sizes : List ℚ) (max_size : ℚ) (startT alpha : ℚ) (mi : ℤ)
    (hn : n_items ≠ 0) (hmi : 10 ≤ mi)
    (hv : valus.length = n_items) (hs : sizes.length = n_items) :
    (∃ r, solve expf u n_items valus sizes max_size mi startT alpha = .ok r) ∧
    (∀ mi2 : ℤ, mi2 ≤ 0 →
      solve expf u n_items valus sizes max_size mi2 startT alpha =
        .ok (List.replicate n_items 1)) := by
  have hne : (initState n_items valus sizes max_size startT).packing ≠ [] := by
    intro h
    apply hn
    have hl := congrArg List.length h
    simpa [initState] using hl
  constructor
  · have hi : mi.toNat / 10 ≠ 0 := by
      have h10n : (10 : ℕ) ≤ mi.toNat := by omega
      have h1 := (Nat.one_le_div_iff (by norm_num : 0 < 10)).mpr h10n
      omega
    obtain ⟨stf, hrun, _, _⟩ :=
      runIters_ok expf u valus sizes max_size alpha (mi.toNat / 10)
        (initState n_items valus sizes max_size startT) hne hi mi.toNat
    refine ⟨stf.packing, ?_⟩
    unfold solve
    rw [hrun]
    rfl
  · intro mi2 h0
    have ht : mi2.toNat = 0 := by omega
    unfold solve
    rw [ht]
    rfl

theorem c7_witness :
    ((2 : ℕ) ≠ 0) ∧ ((10 : ℤ) ≤ 10) ∧
    (List.length [(3 : ℚ), 4] = 2) ∧ (List.length [(1 : ℚ), 1] = 2) ∧
    ((∃ r, solve (fun _ => 1) (fun _ => 0) 2 [3, 4] [1, 1] 10 10 (-5) 2 = .ok r) ∧
     (∀ mi2 : ℤ, mi2 ≤ 0 →
       solve (fun _ => 1) (fun _ => 0) 2 [3, 4] [1, 1] 10 mi2 (-5) 2 =
         .ok (List.replicate 2 1))) :=
  ⟨by decide, by norm_num, rfl, rfl,
    c7_no_validation (fun _ => 1) (fun _ => 0) 2 [3, 4] [1, 1] 10 (-5) 2 10
      (by decide) (by norm_num) rfl rfl⟩

/-- C8 counterexample: configuration `startTemperature = 1`,
`coolingFactor = 1/2`, `maxIterations = 2000` on a one-item instance. At
iteration 1100 the loop is still running with temperature exactly
`(1/2)^1100` — far below `2^(-1074)`, the smallest positive IEEE-754
double, so in the floating-point program the temperature has underflowed
to zero — yet nothing clamps it, no configuration error is raised, and
the solve completes normally. -/
theorem c8_counterexample :
    runIters (fun _ => (0 : ℚ)) (fun _ => (0 : ℚ)) [5] [3] 10 (1/2) 200
      ⟨[1], 5, 1, 0⟩ 1100 = .ok ⟨[1], 5, (1/2) ^ 1100, 2200⟩ ∧
    ((1/2 : ℚ) ^ 1100 < (1/2) ^ 1074) ∧
    solve (fun _ => (0 : ℚ)) (fun _ => (0 : ℚ)) 1 [5] [3] 10 2000 1 (1/2) = .ok [1] := by
  refine ⟨?_, ?_, ?_⟩
  · exact c8_run 1100
  · apply pow_lt_pow_right_of_lt_one (by norm_num) (by norm_num) (by norm_num)
  · have hinit : initState 1 [5] [3] 10 1 = ⟨[1], 5, 1, 0⟩ := by
      unfold initState
      rw [show List.replicate 1 (1 : ℕ) = [1] from rfl,
        show (total_valu_size [1] [5] [3] 10).1 = 5 from by
          norm_num [total_valu_size, tvs_aux]]
    unfold solve
    rw [show ((2000 : ℤ).toNat / 10) = 200 from rfl, show ((2000 : ℤ).toNat) = 2000 from rfl,
      hinit, c8_run 2000]
    rfl

/-- C8 (amended): `solve` applies no temperature guard of any kind: the
temperature at the start of iteration `k` is the raw product
`startTemperature * coolingFactor ^ k` for every `k`, with no positive
floor and no setup-time rejection, and the run completes regardless of
how small the temperature becomes. -/
theorem c8_no_temperature_guard (expf : ℚ → ℚ) (u : ℕ → ℚ) (n_items : ℕ)
    (valus sizes : List ℚ) (max_size : ℚ) (startT alpha : ℚ) (mi : ℤ)
    (hn : n_items ≠ 0) (hmi : 10 ≤ mi) :
    (∀ k, ∃ st, runIters expf u valus sizes max_size alpha (mi.toNat / 10)
        (initState n_items valus sizes max_size startT) k = .ok st ∧
      st.temp = startT * alpha ^ k) ∧
    (∃ r, solve expf u n_items valus sizes max_size mi startT alpha = .ok r) := by
  have hne : (initState n_items valus sizes max_size startT).packing ≠ [] := by
    intro h
    apply hn
    have hl := congrArg List.length h
    simpa [initState] using hl
  have hi : mi.toNat / 10 ≠ 0 := by
    have h10n : (10 : ℕ) ≤ mi.toNat := by omega
    have h1 := (Nat.one_le_div_iff (by norm_num : 0 < 10)).mpr h10n
    omega
  constructor
  · intro k
    obtain ⟨st, hrun, htemp, _⟩ :=
      runIters_ok expf u valus sizes max_size alpha (mi.toNat / 10)
        (initState n_items valus sizes max_size startT) hne hi k
    exact ⟨st, hrun, htemp⟩
  · obtain ⟨stf, hrun, _, _⟩ :=
      runIters_ok expf u valus sizes max_size alpha (mi.toNat / 10)
        (initState n_items valus sizes max_size startT) hne hi mi.toNat
    refine ⟨stf.packing, ?_⟩
    unfold solve
    rw [hrun]
    rfl

theorem c8_witness :
    ((1 : ℕ) ≠ 0) ∧ ((10 : ℤ) ≤ 2000) ∧
    ((∀ k, ∃ st, runIters (fun _ => 1) (fun _ => 0) [5] [3] 10 (1/2)
        ((2000 : ℤ).toNat / 10) (initState 1 [5] [3] 10 1) k = .ok st ∧
      st.temp = 1 * (1/2) ^ k) ∧
    (∃ r, solve (fun _ => 1) (fun _ => 0) 1 [5] [3] 10 2000 1 (1/2) = .ok r)) :=
  ⟨by decide, by norm_num,
    c8_no_temperature_guard (fun _ => 1) (fun _ => 0) 1 [5] [3] 10 1 (1/2) 2000
      (by decide) (by norm_num)⟩

/-- C9 (amended): a zero-item instance does not return the empty selection
when the loop runs: the first `adjacent` call performs `randint(0)`, which
raises `ValueError`, for every `max_iter ≥ 1`; only when `max_iter ≤ 0`
(the loop body never executes) does `solve` return the empty selection. -/
theorem c9_amended_zero_items (expf : ℚ → ℚ) (u : ℕ → ℚ) (valus sizes : List ℚ)
    (max_size startT alpha : ℚ) (mi : ℤ) :
    (1 ≤ mi → solve expf u 0 valus sizes max_size mi startT alpha =
      .error "ValueError: low >= high") ∧
    (mi ≤ 0 → solve expf u 0 valus sizes max_size mi startT alpha = .ok []) := by
  constructor
  · intro h1
    have hemp : (initState 0 valus sizes max_size startT).packing = [] := rfl
    have hk : mi.toNat ≠ 0 := by omega
    unfold solve
    rw [runIters_empty expf u valus sizes max_size alpha (mi.toNat / 10)
      (initState 0 valus sizes max_size startT) hemp mi.toNat hk]
    rfl
  · intro h0
    have ht : mi.toNat = 0 := by omega
    unfold solve
    rw [ht]
    rfl

/-- C9 counterexample: on the spec's own example configuration
(`max_iter = 1000`, `start_temperature = 10000`, `alpha = 0.98`) but with
zero items, `solve` raises `ValueError` from `randint(0)` in the first
iteration instead of returning the empty selection. -/
theorem c9_counterexample :
    solve (fun _ => 1) (fun _ => 0) 0 [] [] 101 1000 10000 (98/100) =
      .error "ValueError: low >= high" := by
  have hemp : (initState 0 [] [] 101 10000).packing = [] := rfl
  unfold solve
  rw [runIters_empty (fun _ => 1) (fun _ => 0) [] [] 101 (98/100) ((1000 : ℤ).toNat / 10)
    (initState 0 [] [] 101 10000) hemp (1000 : ℤ).toNat (by decide)]
  rfl

theorem c9_witness :
    solve (fun _ => 1) (fun _ => 0) 0 [] [] 10 3 100 (1/2) =
      .error "ValueError: low >= high" ∧
    solve (fun _ => 1) (fun _ => 0) 0 [] [] 10 0 100 (1/2) = .ok [] :=
  ⟨(c9_amended_zero_items (fun _ => 1) (fun _ => 0) [] [] 10 100 (1/2) 3).1 (by norm_num),
   (c9_amended_zero_items (fun _ => 1) (fun _ => 0) [] [] 10 100 (1/2) 0).2 (by norm_num)⟩

/-- C10: `interval = int(max_iter / 10)` and the loop evaluates
`iteration % interval`, so on any non-empty instance a `max_iter` between
1 and 9 makes the very first iteration raise `ZeroDivisionError`;
`max_iter ≤ 0` never enters the loop and returns the initial all-ones
packing, and `max_iter ≥ 10` runs the loop free of this failure. -/
theorem c10_progress_interval (expf : ℚ → ℚ) (u : ℕ → ℚ) (n_items : ℕ)
    (valus sizes : List ℚ) (max_size : ℚ) (startT alpha : ℚ) (mi : ℤ)
    (hn : n_items ≠ 0) :
    (1 ≤ mi → mi ≤ 9 →
      solve expf u n_items valus sizes max_size mi startT alpha =
        .error "ZeroDivisionError: integer division or modulo by zero") ∧
    (mi ≤ 0 →
      solve expf u n_items valus sizes max_size mi startT alpha =
        .ok (List.replicate n_items 1)) ∧
    (10 ≤ mi →
      ∃ r, solve expf u n_items valus sizes max_size mi startT alpha = .ok r) := by
  have hne : (initState n_items valus sizes max_size startT).packing ≠ [] := by
    intro h
    apply hn
    have hl := congrArg List.length h
    simpa [initState] using hl
  refine ⟨?_, ?_, ?_⟩
  · intro h1 h9
    have ht : mi.toNat / 10 = 0 := Nat.div_eq_of_lt (by omega)
    have hk : mi.toNat ≠ 0 := by omega
    unfold solve
    rw [ht, runIters_div0 expf u valus sizes max_size alpha
      (initState n_items valus sizes max_size startT) hne mi.toNat hk]
    rfl
  · intro h0
    have ht : mi.toNat = 0 := by omega
    unfold solve
    rw [ht]
    rfl
  · intro h10
    have hi : mi.toNat / 10 ≠ 0 := by
      have h10n : (10 : ℕ) ≤ mi.toNat := by omega
      have h1 := (Nat.one_le_div_iff (by norm_num : 0 < 10)).mpr h10n
      omega
    obtain ⟨stf, hrun, _, _⟩ :=
      runIters_ok expf u valus sizes max_size alpha (mi.toNat / 10)
        (initState n_items valus sizes max_size startT) hne hi mi.toNat
    refine ⟨stf.packing, ?_⟩
    unfold solve
    rw [hrun]
    rfl

theorem c10_witness :
    solve (fun _ => 1) (fun _ => 0) 2 [3, 4] [1, 1] 10 7 100 (1/2) =
      .error "ZeroDivisionError: integer division or modulo by zero" ∧
    solve (fun _ => 1) (fun _ => 0) 2 [3, 4] [1, 1] 10 (-2) 100 (1/2) =
      .ok (List.replicate 2 1) ∧
    (∃ r, solve (fun _ => 1) (fun _ => 0) 2 [3, 4] [1, 1] 10 12 100 (1/2) = .ok r) :=
  ⟨(c10_progress_interval (fun _ => 1) (fun _ => 0) 2 [3, 4] [1, 1] 10 100 (1/2) 7
      (by decide)).1 (by norm_num) (by norm_num),
   (c10_progress_interval (fun _ => 1) (fun _ => 0) 2 [3, 4] [1, 1] 10 100 (1/2) (-2)
      (by decide)).2.1 (by norm_num),
   (c10_progress_interval (fun _ => 1) (fun _ => 0) 2 [3, 4] [1, 1] 10 100 (1/2) 12
      (by decide)).2.2 (by norm_num)⟩
